import Mathlib

/-!
# Verification of the resize-tool web application core logic

Shallow embedding of the batch media-resize pipeline:
geometry resolution (`resizeVideo` in `src/app/lib/videoutils.ts`,
`resizeImage` in the image utility module), the Base64 decode surface
(`handleConvert` in the Base64 image page), the batch orchestrators
(`handleResizeClick` in `VideoPage.tsx` / `ImagePage.tsx`), file selection
(`handleFileChange`), parameter validation, the ffmpeg working-namespace
lifecycle, and the object-URL (download handle) lifecycle.

JavaScript numbers are modelled as exact rationals (`ℚ`); all inputs the
claims range over are small integers on which IEEE-754 double arithmetic is
exact.  Nullable parameters are `Option` values and JS truthiness of a
number (`0` and `null` are falsy) is modelled explicitly.
-/

namespace ResizeTool

/-! ## JS value helpers -/

/-- `Math.floor` on a JS number (modelled as an exact rational). -/
def jsFloor (q : ℚ) : ℚ := (⌊q⌋ : ℤ)

/-- JS `x % 2` for the non-negative numbers that occur here. -/
def jsMod2 (q : ℚ) : ℚ := q - 2 * jsFloor (q / 2)

/-- `x % 2 !== 0`, the oddness test used by `resizeVideo`. -/
def jsOdd (q : ℚ) : Bool := decide (jsMod2 q ≠ 0)

/-- JS truthiness of a nullable number: `null` and `0` are falsy. -/
def jsTruthy : Option ℚ → Bool
  | none => false
  | some q => decide (q ≠ 0)

/-- JS `x || 0` on a nullable number. -/
def jsOrZero : Option ℚ → ℚ
  | none => 0
  | some q => q

/-- JS strict equality `n === x` between a number `n` and a nullable `x`. -/
def jsEqNum (n : ℚ) : Option ℚ → Bool
  | none => false
  | some q => decide (q = n)

/-! ## Geometry resolver and conversion invoker, video path
(`resizeVideo`, `src/app/lib/videoutils.ts` lines 26-96) -/

/-- Video container extensions accepted by the video page
(`supportedExtensions` / `VideoExtensions` in `fileconst.ts`). -/
inductive VideoExt
  | mp4
  | mov
  | webm
  deriving DecidableEq

def VideoExt.str : VideoExt → String
  | .mp4 => "mp4"
  | .mov => "mov"
  | .webm => "webm"

/-- The parameters handed to the ffmpeg engine by `resizeVideo`:
the `scale=w:h` filter arguments, whether `format=yuv444p` was appended
(non-multiple-of-two dimensions), the optional `fps` filter and the MIME
type of the produced blob. -/
structure EngineCall where
  scaleW : ℚ
  scaleH : ℚ
  pixFmt : Bool
  fpsFilter : Option ℚ
  mime : String
  deriving DecidableEq

/-- Result of one `resizeVideo` invocation. -/
inductive VideoOutcome
  | origData (mime : String)     -- the input blob is returned unchanged
  | converted (call : EngineCall) -- the engine ran and produced a blob
  | failed                        -- the `catch` branch returned `null`
  deriving DecidableEq

set_option linter.unusedVariables false in
/-- Shallow embedding of `resizeVideo` (videoutils.ts lines 26-96).
`inMime` is the MIME type of the input blob, `beforeWidth`/`beforeHeight`
the probed dimensions, `execOk` whether the ffmpeg transform step
succeeds.  Lines 46-49 compute the aspect-preserving geometry with
increment-if-odd, and lines 51-52 then overwrite both dimensions with
half of the original (the leftover debug override). -/
def resizeVideoModel (inMime : String) (beforeWidth beforeHeight : ℚ)
    (width height fps : Option ℚ) (execOk : Bool) : VideoOutcome :=
  -- line 34: `if (!width && !height && !fps) return videoData;`
  if ¬jsTruthy width ∧ ¬jsTruthy height ∧ ¬jsTruthy fps then .origData inMime
  -- lines 41-44: requested-equals-original early return, only when `!fps`
  else if ¬jsTruthy fps ∧
      ((jsEqNum beforeWidth width ∧ (jsEqNum beforeHeight height ∨ ¬jsTruthy height)) ∨
       (jsEqNum beforeHeight height ∧ (jsEqNum beforeWidth width ∨ ¬jsTruthy width))) then
    .origData inMime
  else
    -- lines 46-49: aspect-ratio formulas plus increment-if-odd
    let afterWidth0 := if jsTruthy width then jsOrZero width
      else jsFloor (jsOrZero height * beforeWidth / beforeHeight)
    let afterWidth1 := if jsOdd afterWidth0 then afterWidth0 + 1 else afterWidth0
    let afterHeight0 := if jsTruthy height then jsOrZero height
      else jsFloor (jsOrZero width * (beforeHeight / beforeWidth))
    let afterHeight1 := if jsOdd afterHeight0 then afterHeight0 + 1 else afterHeight0
    -- lines 51-52: `afterWidth = beforeWidth / 2; afterHeight = beforeHeight / 2;`
    let afterWidth := beforeWidth / 2
    let afterHeight := beforeHeight / 2
    -- lines 71-95: build `-vf` options, run the engine, catch failures
    if execOk then
      .converted
        ⟨afterWidth, afterHeight,
         jsOdd afterWidth || jsOdd afterHeight,
         (if jsTruthy fps then fps else none),
         "video/mp4"⟩
    else .failed

/-- The height the spec's geometry resolver assigns on the width-only
path: `floor(width × originalHeight / originalWidth)`, incremented by 1
when odd (even-dimension-required path).  This follows the spec's words
(spec §4.1 / §8) and is compared against `resizeVideoModel`. -/
def specResolvedHeight (requestedW originalW originalH : ℚ) : ℚ :=
  let h := jsFloor (requestedW * originalH / originalW)
  if jsOdd h then h + 1 else h

/-! ## Geometry resolver, image path (`resizeImage`, image utility module
lines 18-93) -/

inductive ImageExt
  | jpg
  | jpeg
  | png
  | gif
  | avif
  deriving DecidableEq

/-- MIME type chosen by `resizeImage` (lines 72-75): default jpeg. -/
def imageMime : ImageExt → String
  | .png => "image/png"
  | .gif => "image/gif"
  | .avif => "image/avif"
  | _ => "image/jpeg"

/-- Result of one `resizeImage` invocation. -/
inductive ImageOutcome
  | origData                      -- `resolve(imageData)`: input returned unchanged
  | canvas (w h : ℚ) (mime : String) -- drawn to a canvas of `w×h`, re-encoded
  | failure (msg : String)        -- rejected promise
  deriving DecidableEq

/-- Shallow embedding of `resizeImage` (image utility module lines 18-93).
`ctxOk` is whether `canvas.getContext('2d')` succeeds, `blobOk` whether
`canvas.toBlob` produces a blob. -/
def resizeImageModel (beforeWidth beforeHeight : ℚ) (width height : Option ℚ)
    (ext : ImageExt) (ctxOk blobOk : Bool) : ImageOutcome :=
  -- line 27: `if (!width && !height)` early resolve
  if ¬jsTruthy width ∧ ¬jsTruthy height then .origData
  else
    -- lines 45-46: aspect-ratio formulas (no even rounding on the image path)
    let afterWidth := if jsTruthy width then jsOrZero width
      else jsFloor (jsOrZero height * beforeWidth / beforeHeight)
    let afterHeight := if jsTruthy height then jsOrZero height
      else jsFloor (jsOrZero width * beforeHeight / beforeWidth)
    -- line 49: `if ((!width && !height) || (width === beforeWidth && height === beforeHeight))`
    if (¬jsTruthy width ∧ ¬jsTruthy height) ∨
        (jsEqNum beforeWidth width ∧ jsEqNum beforeHeight height) then .origData
    -- lines 57-87: canvas drawing and serialization
    else if ¬ctxOk then .failure "Could not get canvas context"
    else if ¬blobOk then .failure "Canvas toBlob failed"
    else .canvas afterWidth afterHeight (imageMime ext)

/-! ## Engine working namespace (ffmpeg virtual file system) and
console-error log of one `resizeVideo` engine interaction
(videoutils.ts lines 71-95).

`resizeVideo` writes the source under `'tmp.' + ext`, runs `exec`, reads
`'tmp_output.mp4'` back and deletes only that output entry; the whole
block is wrapped in `try/catch` and the `catch` branch logs the error
(`console.error(err)`) and returns `null` without deleting anything. -/

/-- `(result, console errors, files left in the working namespace)` of
the engine interaction, given whether the transform step succeeds and
the error text thrown on failure. -/
def resizeVideoFS (ext : VideoExt) (execOk : Bool) (errText : String) :
    Option String × List String × List String :=
  let inputFilename := "tmp." ++ ext.str
  let outputFilename := "tmp_output.mp4"
  -- after `ffmpeg.writeFile(inputFilename, ...)` the namespace holds the input
  let fs0 : List String := [inputFilename]
  if execOk then
    -- `exec` created the output, `readFile` succeeded, `deleteFile(outputFilename)`
    (some "video/mp4", [], (fs0 ++ [outputFilename]).erase outputFilename)
  else
    -- transform failed: `readFile` throws, the catch branch deletes nothing
    (none, [errText], fs0)

/-! ## Download filename derivation (`handleDownload`,
`VideoPage.tsx` lines 233-243; `defaultOutputExtension = 'mp4'`). -/

/-- JS `String.prototype.split(sep)` on a character separator. -/
def jsSplitOn (sep : Char) : List Char → List (List Char)
  | [] => [[]]
  | c :: cs =>
    let r := jsSplitOn sep cs
    if c = sep then [] :: r
    else
      match r with
      | [] => [[c]]
      | h :: t => (c :: h) :: t

/-- JS `Array.prototype.join(sep)` on a character separator. -/
def joinSep (sep : Char) : List (List Char) → List Char
  | [] => []
  | [x] => x
  | x :: y :: t => x ++ sep :: joinSep sep (y :: t)

/-- `handleDownload`'s filename: `originalFileName.split('.').slice(0,-1).join('.') || 'video'`
plus `_resized.` plus the fixed `mp4` output extension. -/
def videoDownloadName (originalFileName : String) : String :=
  let parts := jsSplitOn '.' originalFileName.data
  let base := joinSep '.' parts.dropLast
  let baseName := if base = [] then "video".data else base
  String.mk (baseName ++ "_resized.mp4".data)

example : videoDownloadName "clip.mov" = "clip_resized.mp4" := by decide
example : videoDownloadName "video" = "video_resized.mp4" := by decide
example : videoDownloadName "a.b.webm" = "a.b_resized.mp4" := by decide

example : resizeVideoModel "video/mp4" 100 50 (some 30) none none true =
    .converted ⟨50, 25, true, none, "video/mp4"⟩ := by
  norm_num [resizeVideoModel, jsTruthy, jsEqNum, jsOrZero, jsOdd, jsMod2, jsFloor]

example : specResolvedHeight 30 100 50 = 16 := by
  norm_num [specResolvedHeight, jsFloor, jsOdd, jsMod2]

example : resizeImageModel 100 50 (some 100) none .png true true =
    .canvas 100 50 "image/png" := by
  norm_num [resizeImageModel, jsTruthy, jsEqNum, jsOrZero, jsFloor, imageMime]

/-! ## Batch orchestrator
(`handleResizeClick` in `VideoPage.tsx` lines 126-230 and
`ImagePage.tsx` lines 133-234).

Per-item state machine `pending → processing → {success | error}`.  The
orchestrator loop is modelled as a function from the list of per-item
converter outcomes to the sequence of `results`-array snapshots
(one snapshot per `setResults` that changes a status). -/

/-- `ProcessingResult.status`. -/
inductive Status
  | pending
  | processing
  | success
  | error
  deriving DecidableEq

/-- What the converter call for one item does: returns a blob, returns
`null`, or throws with the given message. -/
inductive Outcome
  | ok
  | nullResult
  | thrown (msg : String)
  deriving DecidableEq

/-- The per-item fields of `ProcessingResult` that the claims are about. -/
structure ItemState where
  status : Status
  progressLog : List String
  errMsg : Option String
  deriving DecidableEq

def blankItem : ItemState := ⟨.pending, [], none⟩

/-- Status of item `j` in a snapshot (out-of-range reads as `pending`). -/
def statusAt (l : List ItemState) (j : Nat) : Status :=
  (l.getD j blankItem).status

def isTerminal : Status → Bool
  | .success => true
  | .error => true
  | _ => false

/-- Replace item `i` by `f` applied to it (identity out of range);
models the `setResults(prev => ...)` updates that copy the array and
replace one element. -/
def updAt (f : ItemState → ItemState) : Nat → List ItemState → List ItemState
  | _, [] => []
  | 0, x :: xs => f x :: xs
  | n + 1, x :: xs => x :: updAt f n xs

/-- The per-page message strings of the orchestrator. -/
structure BatchCfg where
  doneMsg : String
  nullMsg : String
  unexpectedPre : String
  deriving DecidableEq

/-- `VideoPage.tsx` strings (lines 193, 202, 215). -/
def videoCfg : BatchCfg :=
  ⟨"Processing complete! Output video is ready.",
   "Video processing failed. Check progress log for details.",
   "An unexpected error occurred: "⟩

/-- `ImagePage.tsx` strings (lines 199, 207, 219). -/
def imageCfg : BatchCfg :=
  ⟨"Processing complete! Output image is ready.",
   "Image processing failed.",
   "An unexpected error occurred: "⟩

/-- The `status: 'processing', progressLog: ['Starting process...']`
update (VideoPage line 169 / ImagePage line 177); note the log is
replaced, not appended to. -/
def markProcessing (s : ItemState) : ItemState :=
  { s with status := .processing, progressLog := ["Starting process..."] }

/-- Terminal update for one item, per converter outcome (VideoPage
lines 184-226 / ImagePage lines 190-230).  Engine progress callbacks
mutate only `progressLog`/`progressPercent` and are abstracted away. -/
def applyOutcome (cfg : BatchCfg) : Outcome → ItemState → ItemState
  | .ok, s =>
    { s with status := .success, progressLog := s.progressLog ++ [cfg.doneMsg] }
  | .nullResult, s =>
    { s with status := .error, errMsg := some cfg.nullMsg,
             progressLog := s.progressLog ++ ["Error: " ++ cfg.nullMsg] }
  | .thrown m, s =>
    { s with status := .error, errMsg := some (cfg.unexpectedPre ++ m),
             progressLog := s.progressLog ++ ["Error: " ++ (cfg.unexpectedPre ++ m)] }

def outcomeStatus : Outcome → Status
  | .ok => .success
  | .nullResult => .error
  | .thrown _ => .error

/-- The sequential `for` loop from index `i` on: for each remaining
item, one snapshot after the `processing` update and one after the
terminal update.  `init` is the `initialResults` array; ImagePage
line 170 skips items whose initial status is `error` (probe failures) —
for VideoPage `init` is all-pending so the skip never fires. -/
def runFrom (cfg : BatchCfg) (init : List ItemState) :
    List Outcome → List ItemState → Nat → List (List ItemState)
  | [], _, _ => []
  | o :: os, st, i =>
    if statusAt init i = .error then runFrom cfg init os st (i + 1)
    else
      let st1 := updAt markProcessing i st
      let st2 := updAt (applyOutcome cfg o) i st1
      st1 :: st2 :: runFrom cfg init os st2 (i + 1)

def pendingInit (n : Nat) : List ItemState := List.replicate n blankItem

/-- Snapshot sequence of one VideoPage batch run over `os.length` files. -/
def videoBatchTrace (os : List Outcome) : List (List ItemState) :=
  pendingInit os.length :: runFrom videoCfg (pendingInit os.length) os (pendingInit os.length) 0

/-- Final `results` array of one VideoPage batch run. -/
def videoBatchFinal (os : List Outcome) : List ItemState :=
  (runFrom videoCfg (pendingInit os.length) os (pendingInit os.length) 0).getLastD
    (pendingInit os.length)

/-- ImagePage `initialResults` entry for a probe failure
(`handleFileChange` lines 99-107, reset at lines 160-165). -/
def probeErrItem : ItemState := ⟨.error, [], some "Invalid image file"⟩

/-- ImagePage `initialResults`: one flag per file, `true` = probe succeeded. -/
def imageInit (pre : List Bool) : List ItemState :=
  pre.map fun okFlag => if okFlag then blankItem else probeErrItem

def imageBatchTrace (pre : List Bool) (os : List Outcome) : List (List ItemState) :=
  imageInit pre :: runFrom imageCfg (imageInit pre) os (imageInit pre) 0

def imageBatchFinal (pre : List Bool) (os : List Outcome) : List ItemState :=
  (runFrom imageCfg (imageInit pre) os (imageInit pre) 0).getLastD (imageInit pre)

/-- One batch step respects sequential order: whenever item `j` leaves
`pending` across the step, every item before `j` is already terminal. -/
def stepOK (t t' : List ItemState) : Prop :=
  ∀ j, statusAt t j = .pending → statusAt t' j ≠ .pending →
    ∀ k, k < j → isTerminal (statusAt t k) = true

/-- All adjacent snapshot pairs of a trace respect sequential order. -/
def traceOK : List (List ItemState) → Prop
  | t :: t' :: rest => stepOK t t' ∧ traceOK (t' :: rest)
  | _ => True

/-! ### Helper lemmas about `updAt` and the initial arrays -/

theorem updAt_length (f : ItemState → ItemState) :
    ∀ (i : Nat) (l : List ItemState), (updAt f i l).length = l.length := by
  intro i l
  induction l generalizing i with
  | nil => cases i <;> rfl
  | cons x xs ih => cases i with
    | zero => rfl
    | succ n => simpa [updAt] using ih n

theorem getD_updAt_ne (f : ItemState → ItemState) :
    ∀ (i j : Nat) (l : List ItemState) (d : ItemState), j ≠ i →
      (updAt f i l).getD j d = l.getD j d := by
  intro i j l
  induction l generalizing i j with
  | nil => intro d _; cases i <;> rfl
  | cons x xs ih =>
    intro d h
    cases i with
    | zero =>
      cases j with
      | zero => exact absurd rfl h
      | succ m => rfl
    | succ n =>
      cases j with
      | zero => rfl
      | succ m =>
        simpa [updAt, List.getD_cons_succ] using ih n m d (fun hh => h (by rw [hh]))

theorem getD_updAt_self (f : ItemState → ItemState) :
    ∀ (i : Nat) (l : List ItemState) (d : ItemState), i < l.length →
      (updAt f i l).getD i d = f (l.getD i d) := by
  intro i l
  induction l generalizing i with
  | nil => intro d h; simp at h
  | cons x xs ih =>
    intro d h
    cases i with
    | zero => rfl
    | succ n =>
      simpa [updAt, List.getD_cons_succ] using ih n d (by simpa using h)

theorem getD_pendingInit : ∀ (n k : Nat), (pendingInit n).getD k blankItem = blankItem := by
  intro n
  induction n with
  | zero => intro k; cases k <;> rfl
  | succ m ih =>
    intro k
    cases k with
    | zero => rfl
    | succ j =>
      have h := ih j
      simp only [pendingInit, List.replicate, List.getD_cons_succ] at h ⊢
      exact h

theorem statusAt_pendingInit (n k : Nat) : statusAt (pendingInit n) k = .pending := by
  unfold statusAt
  rw [getD_pendingInit]
  rfl

theorem getD_imageInit : ∀ (pre : List Bool) (j : Nat),
    (imageInit pre).getD j blankItem =
      if pre.getD j true then blankItem else probeErrItem := by
  intro pre
  induction pre with
  | nil => intro j; cases j <;> rfl
  | cons p ps ih =>
    intro j
    cases j with
    | zero => rfl
    | succ m => simpa [imageInit, List.getD_cons_succ] using ih m

theorem statusAt_imageInit (pre : List Bool) (k : Nat) :
    statusAt (imageInit pre) k = .pending ∨ statusAt (imageInit pre) k = .error := by
  unfold statusAt
  rw [getD_imageInit]
  by_cases h : pre.getD k true
  · left; rw [if_pos h]; rfl
  · right; rw [if_neg h]; rfl

theorem applyOutcome_status (cfg : BatchCfg) (o : Outcome) (s : ItemState) :
    (applyOutcome cfg o s).status = outcomeStatus o := by
  cases o <;> rfl

theorem isTerminal_outcomeStatus (o : Outcome) : isTerminal (outcomeStatus o) = true := by
  cases o <;> rfl

/-! ### The sequential-order and final-state behaviour of the loop -/

/-- Main induction over the orchestrator loop.  Starting at index `i`
with all earlier items terminal and all later items untouched since
`initialResults`, the produced snapshot sequence respects sequential
order, later steps never touch items before `i`, and each remaining
item ends exactly as its own converter outcome dictates (probe-errored
items are skipped and keep their initial state). -/
theorem runFrom_spec (cfg : BatchCfg) (init : List ItemState) :
    ∀ (os : List Outcome) (st : List ItemState) (i : Nat),
      i + os.length ≤ st.length →
      (∀ k, k < i → isTerminal (statusAt st k) = true) →
      (∀ k, i ≤ k → st.getD k blankItem = init.getD k blankItem) →
      traceOK (st :: runFrom cfg init os st i) ∧
      (∀ j, j < i →
        ((runFrom cfg init os st i).getLastD st).getD j blankItem = st.getD j blankItem) ∧
      (∀ m, m < os.length →
        ((runFrom cfg init os st i).getLastD st).getD (i + m) blankItem =
          if statusAt init (i + m) = .error then init.getD (i + m) blankItem
          else applyOutcome cfg (os.getD m .ok) (markProcessing (init.getD (i + m) blankItem))) := by
  intro os
  induction os with
  | nil =>
    intro st i _ _ _
    refine ⟨trivial, ?_, ?_⟩
    · intro j _; simp [runFrom]
    · intro m hm; simp at hm
  | cons o os ih =>
    intro st i hlen hterm hagree
    have hlen' : i + os.length + 1 ≤ st.length := by
      simp only [List.length_cons] at hlen
      omega
    have hlt : i < st.length := by omega
    by_cases hskip : statusAt init i = .error
    · -- probe-errored item: the loop `continue`s without touching `st`
      have hterm1 : ∀ k, k < i + 1 → isTerminal (statusAt st k) = true := by
        intro k hk
        rcases Nat.lt_succ_iff_lt_or_eq.mp hk with h | h
        · exact hterm k h
        · subst h
          have : statusAt st k = statusAt init k := by
            unfold statusAt; rw [hagree k le_rfl]
          rw [this, hskip]; rfl
      have hagree1 : ∀ k, i + 1 ≤ k → st.getD k blankItem = init.getD k blankItem :=
        fun k hk => hagree k (by omega)
      obtain ⟨htr, hb, hc⟩ := ih st (i + 1) (by omega) hterm1 hagree1
      have hrw : runFrom cfg init (o :: os) st i = runFrom cfg init os st (i + 1) := by
        simp only [runFrom]
        rw [if_pos hskip]
      refine ⟨?_, ?_, ?_⟩
      · rw [hrw]; exact htr
      · intro j hj; rw [hrw]; exact hb j (by omega)
      · intro m hm
        rw [hrw]
        cases m with
        | zero =>
          have h0 := hb i (by omega)
          simp only [Nat.add_zero, List.getD_cons_zero]
          rw [h0, hagree i le_rfl, if_pos hskip]
        | succ m' =>
          have := hc m' (by simpa using hm)
          rw [show i + (m' + 1) = i + 1 + m' by omega]
          rw [this]
          rfl
    · -- live item: `processing` snapshot, then terminal snapshot
      have hst1len : (updAt markProcessing i st).length = st.length := updAt_length _ _ _
      have hst2len :
          (updAt (applyOutcome cfg o) i (updAt markProcessing i st)).length = st.length := by
        rw [updAt_length, hst1len]
      have hst2i :
          (updAt (applyOutcome cfg o) i (updAt markProcessing i st)).getD i blankItem =
            applyOutcome cfg o (markProcessing (init.getD i blankItem)) := by
        rw [getD_updAt_self _ _ _ _ (by rw [hst1len]; exact hlt),
            getD_updAt_self _ _ _ _ hlt, hagree i le_rfl]
      have hst2ne : ∀ k, k ≠ i →
          (updAt (applyOutcome cfg o) i (updAt markProcessing i st)).getD k blankItem =
            st.getD k blankItem := by
        intro k hk
        rw [getD_updAt_ne _ _ _ _ _ hk, getD_updAt_ne _ _ _ _ _ hk]
      have hterm2 : ∀ k, k < i + 1 →
          isTerminal (statusAt (updAt (applyOutcome cfg o) i (updAt markProcessing i st)) k)
            = true := by
        intro k hk
        rcases Nat.lt_succ_iff_lt_or_eq.mp hk with h | h
        · unfold statusAt
          rw [hst2ne k (by omega)]
          exact hterm k h
        · subst h
          unfold statusAt
          rw [hst2i, applyOutcome_status]
          exact isTerminal_outcomeStatus o
      have hagree2 : ∀ k, i + 1 ≤ k →
          (updAt (applyOutcome cfg o) i (updAt markProcessing i st)).getD k blankItem =
            init.getD k blankItem := by
        intro k hk
        rw [hst2ne k (by omega)]
        exact hagree k (by omega)
      obtain ⟨htr, hb, hc⟩ :=
        ih (updAt (applyOutcome cfg o) i (updAt markProcessing i st)) (i + 1)
          (by rw [hst2len]; omega) hterm2 hagree2
      have hrw : runFrom cfg init (o :: os) st i =
          updAt markProcessing i st ::
            updAt (applyOutcome cfg o) i (updAt markProcessing i st) ::
              runFrom cfg init os
                (updAt (applyOutcome cfg o) i (updAt markProcessing i st)) (i + 1) := by
        simp only [runFrom]
        rw [if_neg hskip]
      have hlast : (runFrom cfg init (o :: os) st i).getLastD st =
          (runFrom cfg init os
            (updAt (applyOutcome cfg o) i (updAt markProcessing i st)) (i + 1)).getLastD
            (updAt (applyOutcome cfg o) i (updAt markProcessing i st)) := by
        rw [hrw, List.getLastD_cons, List.getLastD_cons]
      refine ⟨?_, ?_, ?_⟩
      · rw [hrw]
        refine ⟨?_, ?_, htr⟩
        · -- stepOK st st1: only item i leaves pending, and items before it are terminal
          intro j hj hj' k hkj
          by_cases hji : j = i
          · exact hterm k (hji ▸ hkj)
          · exfalso
            apply hj'
            unfold statusAt
            rw [getD_updAt_ne _ _ _ _ _ hji]
            exact hj
        · -- stepOK st1 st2: no item leaves pending here (item i is already processing)
          intro j hj hj' _ _
          exfalso
          by_cases hji : j = i
          · subst hji
            have : statusAt (updAt markProcessing j st) j = .processing := by
              unfold statusAt
              rw [getD_updAt_self _ _ _ _ hlt]
              rfl
            rw [hj] at this
            cases this
          · apply hj'
            unfold statusAt
            rw [getD_updAt_ne _ _ _ _ _ hji]
            exact hj
      · intro j hj
        rw [hlast, hb j (by omega), hst2ne j (by omega)]
      · intro m hm
        rw [hlast]
        cases m with
        | zero =>
          have h0 := hb i (by omega)
          simp only [Nat.add_zero, List.getD_cons_zero]
          rw [h0, hst2i, if_neg hskip]
        | succ m' =>
          have := hc m' (by simpa using hm)
          rw [show i + (m' + 1) = i + 1 + m' by omega]
          rw [this]
          rfl

/-! ## Parameter validation before the batch starts
(`handleResizeClick`, `VideoPage.tsx` lines 126-148 and
`ImagePage.tsx` lines 133-156).

The width/height/fps inputs are `number | ''` states; `''` maps to
`null`, so a specified parameter is a `some` integer. -/

/-- `x !== null && x <= 0`. -/
def nonPositive : Option Int → Bool
  | none => false
  | some v => decide (v ≤ 0)

/-- The global error produced before any item starts on the video page,
or `none` when the batch may start (VideoPage lines 127-145). -/
def videoValidationError (nFiles : Nat) (w h fps : Option Int) : Option String :=
  if nFiles = 0 then some "Please select at least one video file."
  else if w = none ∧ h = none ∧ fps = none then
    some "Please specify at least one parameter: width, height, or FPS."
  else if nonPositive w || nonPositive h || nonPositive fps then
    some "Width, height, and FPS must be positive numbers."
  else none

/-- Same for the image page (ImagePage lines 134-155), which also
rejects width and height both being specified. -/
def imageValidationError (nFiles : Nat) (w h : Option Int) : Option String :=
  if nFiles = 0 then some "Please select at least one image file."
  else if w = none ∧ h = none then
    some "Please specify at least one parameter: width or height."
  else if w ≠ none ∧ h ≠ none then
    some "Please specify either width or height, not both."
  else if nonPositive w || nonPositive h then
    some "Width and height must be positive numbers."
  else none

/-- Result of one click of the resize button: either blocked by a
global validation error (no item leaves `pending`, no converter call is
made, no snapshots are produced), or the batch ran producing its
snapshot trace. -/
inductive ClickResult
  | blocked (msg : String)
  | ran (trace : List (List ItemState))
  deriving DecidableEq

/-- `handleResizeClick` on the video page: validation first, then the
sequential loop (one converter outcome per selected file). -/
def handleResizeClickVideo (os : List Outcome) (w h fps : Option Int) : ClickResult :=
  match videoValidationError os.length w h fps with
  | some m => .blocked m
  | none => .ran (videoBatchTrace os)

/-- `handleResizeClick` on the image page (`pre` are the per-file probe
results from `handleFileChange`). -/
def handleResizeClickImage (pre : List Bool) (os : List Outcome) (w h : Option Int) :
    ClickResult :=
  match imageValidationError os.length w h with
  | some m => .blocked m
  | none => .ran (imageBatchTrace pre os)

/-! ## File selection (`handleFileChange`,
`VideoPage.tsx` lines 75-107 and `ImagePage.tsx` lines 61-117). -/

/-- ASCII `toLowerCase` of JS (sufficient for extension comparison). -/
def toLowerCh (c : Char) : Char :=
  if 65 ≤ c.toNat ∧ c.toNat ≤ 90 then Char.ofNat (c.toNat + 32) else c

/-- `file.name.split('.').pop()?.toLowerCase()`. -/
def extOfName (name : String) : Option String :=
  match (jsSplitOn '.' name.data).getLast? with
  | none => none
  | some e => some (String.mk (e.map toLowerCh))

/-- `fileExt && supportedExtensions.includes(fileExt)`: the extension
exists, is non-empty (JS truthiness of the string) and is supported. -/
def isAcceptedName (supported : List String) (name : String) : Bool :=
  match extOfName name with
  | none => false
  | some e => !(e = "") && supported.contains e

def rejectLimitMsg (maxFiles : Nat) (name : String) : String :=
  "You can only select up to " ++ toString maxFiles ++ " files. File \"" ++ name ++
    "\" was ignored."

def rejectTypeMsg (supported : List String) (name : String) : String :=
  "Unsupported file type: \"" ++ name ++ "\". Supported types: " ++
    String.intercalate ", " supported

/-- The selection loop: returns `(newFiles, fileErrors)` given the
picked file names, the per-domain extension allow-list and the
`MAX_FILES` ceiling (`acc` is the running `acceptedCount`). -/
def selectFiles (maxFiles : Nat) (supported : List String) :
    List String → Nat → List String × List String
  | [], _ => ([], [])
  | f :: fs, acc =>
    if maxFiles ≤ acc then
      let r := selectFiles maxFiles supported fs acc
      (r.1, rejectLimitMsg maxFiles f :: r.2)
    else if isAcceptedName supported f then
      let r := selectFiles maxFiles supported fs (acc + 1)
      (f :: r.1, r.2)
    else
      let r := selectFiles maxFiles supported fs acc
      (r.1, rejectTypeMsg supported f :: r.2)

/-- Video page: `MAX_FILES = 3`, extensions mp4/mov/webm. -/
def videoSelect (names : List String) : List String × List String :=
  selectFiles 3 ["mp4", "mov", "webm"] names 0

/-- Image page: `MAX_FILES = 5`, extensions jpg/jpeg/png/gif/avif. -/
def imageSelect (names : List String) : List String × List String :=
  selectFiles 5 ["jpg", "jpeg", "png", "gif", "avif"] names 0

example : videoSelect ["a.mp4", "b.MOV", "c.webm", "d.mp4", "e.mp4"] =
    (["a.mp4", "b.MOV", "c.webm"],
     [rejectLimitMsg 3 "d.mp4", rejectLimitMsg 3 "e.mp4"]) := by decide

/-- Counting lemma for the selection loop: on all-valid input, the
accepted list is capped at the remaining quota and everything beyond
the quota produces one rejection message. -/
theorem selectFiles_lengths (maxFiles : Nat) (supported : List String) :
    ∀ (names : List String) (acc : Nat),
      (∀ n ∈ names, isAcceptedName supported n = true) →
      (selectFiles maxFiles supported names acc).1.length =
          min names.length (maxFiles - acc) ∧
      (selectFiles maxFiles supported names acc).2.length =
          names.length - (maxFiles - acc) := by
  intro names
  induction names with
  | nil => intro acc _; simp [selectFiles]
  | cons f fs ih =>
    intro acc hval
    have hf : isAcceptedName supported f = true := hval f (by simp)
    have hfs : ∀ n ∈ fs, isAcceptedName supported n = true :=
      fun n hn => hval n (by simp [hn])
    by_cases hcap : maxFiles ≤ acc
    · have h := ih acc hfs
      simp only [selectFiles, if_pos hcap, List.length_cons]
      constructor
      · rw [h.1]; omega
      · rw [h.2]; omega
    · have h := ih (acc + 1) hfs
      simp only [selectFiles, if_neg hcap, hf, if_pos, List.length_cons]
      constructor
      · rw [h.1]; omega
      · rw [h.2]; omega

/-! ## Download-handle (object URL) lifecycle
(`VideoPage.tsx` lines 48-63; `ImagePage.tsx` lines 45-59 and
`handleFileChange` / `handleClear`).

A snapshot records the `outputUrl` of each item.  The VideoPage effect
depends on `[results]`, so its cleanup closure runs on *every* results
change; the closure revokes `urlsToRevoke` (the URLs of the snapshot it
captured) and then iterates the same captured `results` revoking the
same URLs again.  The ImagePage effect has `[]` dependencies and only
revokes the latest results' URLs on unmount. -/

def urlsOf (snap : List (Option String)) : List String := snap.filterMap id

/-- One run of the VideoPage cleanup closure captured over `snap`:
`urlsToRevoke.forEach(revoke)` followed by `results.forEach(revoke)`
over the same captured snapshot — every URL twice. -/
def videoCleanup (snap : List (Option String)) : List String :=
  urlsOf snap ++ urlsOf snap

/-- Revocation events of a mounted VideoPage over a sequence of results
snapshots, ending with unmount: the previous effect's cleanup runs at
every snapshot change, and the final effect's cleanup runs on unmount. -/
def videoRevocations : List (List (Option String)) → List String
  | [] => []
  | [last] => videoCleanup last
  | s :: s' :: rest => videoCleanup s ++ videoRevocations (s' :: rest)

/-- Revocation events of a mounted ImagePage over a sequence of results
snapshots ending with unmount: only the unmount cleanup runs, over the
latest snapshot (`latestResultsRef`). -/
def imageRevocations (snaps : List (List (Option String))) : List String :=
  urlsOf (snaps.getLastD [])

/-! ## Base64 decode surface
(`handleConvert` in the Base64 image page, lines 56-187).

Strings are worked with as `List Char`.  `atob` is the browser
primitive; it is modelled by the WHATWG forgiving-base64 decode
algorithm it is specified by. -/

/-- The JS regexp `\s` class (whitespace removed at line 89). -/
def jsWs (c : Char) : Bool :=
  c.toNat ∈ [9, 10, 11, 12, 13, 32, 160, 0x1680, 0x2000, 0x2001, 0x2002, 0x2003,
    0x2004, 0x2005, 0x2006, 0x2007, 0x2008, 0x2009, 0x200a, 0x2028, 0x2029,
    0x202f, 0x205f, 0x3000, 0xfeff]

/-- ASCII whitespace stripped by forgiving-base64 (`atob`). -/
def asciiWs (c : Char) : Bool := c.toNat ∈ [9, 10, 12, 13, 32]

/-- JS `String.prototype.trim()`. -/
def listTrim (cs : List Char) : List Char :=
  ((cs.dropWhile jsWs).reverse.dropWhile jsWs).reverse

/-- `startsWithL pat cs`: `cs` starts with `pat`. -/
def startsWithL : List Char → List Char → Bool
  | [], _ => true
  | _ :: _, [] => false
  | p :: ps, c :: cs => p = c && startsWithL ps cs

/-- `cs.includes(pat)` on strings-as-lists. -/
def containsSub (pat : List Char) : List Char → Bool
  | [] => startsWithL pat []
  | c :: cs => startsWithL pat (c :: cs) || containsSub pat cs

/-- Split at the first occurrence of `pat`: `(before, after)`. -/
def splitFirst (pat : List Char) : List Char → Option (List Char × List Char)
  | [] => if startsWithL pat [] then some ([], []) else none
  | c :: cs =>
    if startsWithL pat (c :: cs) then some ([], (c :: cs).drop pat.length)
    else (splitFirst pat cs).map fun p => (c :: p.1, p.2)

/-- The data-URI regexp `^data:([^;]+);base64,(.*)$` (line 71): a
non-empty semicolon-free MIME part directly followed by `;base64,`.
Returns `(mimeType, payload)` on match. -/
def dataUriMain (cs : List Char) : Option (List Char × List Char) :=
  if startsWithL "data:".data cs then
    let t := cs.drop 5
    let m := t.takeWhile (fun c => c ≠ ';')
    let r := t.drop m.length
    if m.length ≠ 0 ∧ startsWithL ";base64,".data r then some (m, r.drop 8)
    else none
  else none

/-- The fallback branch (lines 78-86): `startsWith('data:') &&
includes('base64,')`, splitting on the first `base64,`; the MIME type
comes from the lazy regexp `/data:(.*?);/` over the prefix part, whose
leftmost `data:` occurrence is at position 0. -/
def dataUriFallback (cs : List Char) : Option (List Char × List Char) :=
  if startsWithL "data:".data cs && containsSub "base64,".data cs then
    match splitFirst "base64,".data cs with
    | some (pre, post) =>
      let mime := match splitFirst [';'] (pre.drop 5) with
        | some (m, _) => m
        | none => []
      some (mime, post)
    | none => none
  else none

/-- Lines 70-87: the whole data-URI prefix handling; no match leaves
the MIME type empty and the payload untouched. -/
def parseDataUri (cs : List Char) : List Char × List Char :=
  match dataUriMain cs with
  | some (m, b) => (m, b)
  | none =>
    match dataUriFallback cs with
    | some (m, b) => (m, b)
    | none => ([], cs)

/-- Lines 70-90: prefix handling, whitespace removal, and URL-safe
alphabet substitution (`-` to `+`, `_` to `/`). -/
def preprocessB64 (cs : List Char) : List Char × List Char :=
  let p := parseDataUri cs
  (p.1, (p.2.filter (fun c => !jsWs c)).map
    fun c => if c = '-' then '+' else if c = '_' then '/' else c)

/-- Lines 92-98 minus the length-1 throw: append `'='.repeat(4 - pad)`
when the length is 2 or 3 mod 4 (`new Array(5 - pad).join('=')`). -/
def padCorrect (b : List Char) : List Char :=
  if b.length % 4 = 0 then b else b ++ List.replicate (4 - b.length % 4) '='

/-- Value of a standard base64 alphabet character. -/
def b64Val (c : Char) : Option Nat :=
  if 65 ≤ c.toNat ∧ c.toNat ≤ 90 then some (c.toNat - 65)
  else if 97 ≤ c.toNat ∧ c.toNat ≤ 122 then some (c.toNat - 97 + 26)
  else if 48 ≤ c.toNat ∧ c.toNat ≤ 57 then some (c.toNat - 48 + 52)
  else if c = '+' then some 62
  else if c = '/' then some 63
  else none

/-- Forgiving-base64 step 2: when the length is a multiple of four,
remove up to two trailing `=`. -/
def dropTrailEq (l : List Char) : List Char :=
  match l.reverse with
  | a :: b :: r =>
    if a = '=' then (if b = '=' then r.reverse else (b :: r).reverse) else l
  | [a] => if a = '=' then [] else l
  | [] => l

/-- Map every character to its alphabet value; any invalid character
fails the whole decode. -/
def mapB64Vals : List Char → Option (List Nat)
  | [] => some []
  | c :: cs =>
    match b64Val c, mapB64Vals cs with
    | some v, some vs => some (v :: vs)
    | _, _ => none

/-- Bit reassembly: each group of four 6-bit values yields three bytes;
a trailing group of two or three values yields one or two bytes. -/
def b64Bytes : List Nat → List Nat
  | v0 :: v1 :: v2 :: v3 :: rest =>
    (v0 * 4 + v1 / 16) :: (v1 % 16 * 16 + v2 / 4) :: (v2 % 4 * 64 + v3) :: b64Bytes rest
  | [v0, v1] => [v0 * 4 + v1 / 16]
  | [v0, v1, v2] => [v0 * 4 + v1 / 16, v1 % 16 * 16 + v2 / 4]
  | _ => []

/-- The browser `atob` (WHATWG forgiving-base64 decode): strip ASCII
whitespace, strip up to two trailing `=` when the length is a multiple
of four, fail on length 1 mod 4 or on characters outside the standard
alphabet, then reassemble the bytes. -/
def atobJs (cs : List Char) : Option (List Nat) :=
  let cs1 := cs.filter fun c => !asciiWs c
  let cs2 := if cs1.length % 4 = 0 then dropTrailEq cs1 else cs1
  if cs2.length % 4 = 1 then none
  else
    match mapB64Vals cs2 with
    | none => none
    | some vs => some (b64Bytes vs)

/-- Uppercase hex digits of one byte, as produced by
`b.toString(16).toUpperCase().padStart(2, '0')` (line 114). -/
def byteHex (b : Nat) : List Char :=
  let dig := fun n => "0123456789ABCDEF".data.getD n '0'
  [dig (b / 16 % 16), dig (b % 16)]

/-- `headerHex`: hex of the first 12 decoded bytes (line 114). -/
def headerHexOf (bytes : List Nat) : List Char :=
  ((bytes.take 12).map byteHex).flatten

/-- Magic-byte MIME classification (lines 116-124). -/
def sniffMime (bytes : List Nat) : String :=
  let hh := headerHexOf bytes
  if startsWithL "FFD8FF".data hh then "image/jpeg"
  else if startsWithL "89504E47".data hh then "image/png"
  else if startsWithL "47494638".data hh then "image/gif"
  else if startsWithL "52494646".data hh then "image/webp"
  else if startsWithL "424D".data hh then "image/bmp"
  else if startsWithL "0000000C6A502020".data hh then "image/jp2"
  else "application/octet-stream"

/-- Result of the decode portion of `handleConvert`: the decoded bytes
with the classified MIME type, or the reported error message. -/
inductive DecodeResult
  | ok (bytes : List Nat) (mime : String)
  | err (msg : String)
  deriving DecidableEq

/-- Shallow embedding of the decode portion of `handleConvert`
(lines 56-138): trim guard, data-URI prefix handling, whitespace
removal, URL-safe substitution, padding correction with the length
check, `atob`, and MIME classification (with the JP2 signature
override of lines 132-137). -/
def handleConvertDecode (input : String) : DecodeResult :=
  let s := listTrim input.data
  if s = [] then .err "Please enter a Base64 string."
  else
    let p := preprocessB64 s
    if p.2.length % 4 = 1 then .err "Invalid Base64 length"
    else
      match atobJs (padCorrect p.2) with
      | none => .err "Invalid Base64 characters."
      | some bytes =>
        let m1 := if p.1 = [] then sniffMime bytes else String.mk p.1
        if m1 = "image/jp2" ∨ startsWithL "0000000C6A502020".data (headerHexOf bytes)
        then .ok bytes "image/jp2"
        else .ok bytes m1

/-- Standard Base64 encoder (with padding), used to state the
round-trip property. -/
def base64Encode : List Nat → List Char
  | b0 :: b1 :: b2 :: rest =>
    let alpha := fun n =>
      "ABCDEFGHIJKLMNOPQRSTUVWXYZabcdefghijklmnopqrstuvwxyz0123456789+/".data.getD n 'A'
    alpha (b0 / 4) :: alpha (b0 % 4 * 16 + b1 / 16) :: alpha (b1 % 16 * 4 + b2 / 64) ::
      alpha (b2 % 64) :: base64Encode rest
  | [b0, b1] =>
    let alpha := fun n =>
      "ABCDEFGHIJKLMNOPQRSTUVWXYZabcdefghijklmnopqrstuvwxyz0123456789+/".data.getD n 'A'
    [alpha (b0 / 4), alpha (b0 % 4 * 16 + b1 / 16), alpha (b1 % 16 * 4), '=']
  | [b0] =>
    let alpha := fun n =>
      "ABCDEFGHIJKLMNOPQRSTUVWXYZabcdefghijklmnopqrstuvwxyz0123456789+/".data.getD n 'A'
    [alpha (b0 / 4), alpha (b0 % 4 * 16), '=', '=']
  | [] => []

/-- A PNG byte sequence: the 8-byte PNG signature followed by the
start of an IHDR chunk. -/
def pngBytes : List Nat :=
  [0x89, 0x50, 0x4E, 0x47, 0x0D, 0x0A, 0x1A, 0x0A,
   0x00, 0x00, 0x00, 0x0D, 0x49, 0x48, 0x44, 0x52]

example : handleConvertDecode (String.mk (base64Encode pngBytes)) =
    .ok pngBytes "image/png" := by decide

example : handleConvertDecode ("data:image/png;base64," ++ String.mk (base64Encode pngBytes)) =
    .ok pngBytes "image/png" := by decide

example : handleConvertDecode "----__8" =
    .ok [251, 239, 190, 255, 255] "application/octet-stream" := by decide

example : handleConvertDecode "AAAAA" = .err "Invalid Base64 length" := by decide

example : handleConvertDecode "AB$D" = .err "Invalid Base64 characters." := by decide

/-- Stripping trailing `=` keeps every non-`=` character. -/
theorem mem_dropTrailEq {c : Char} {l : List Char} (hc : c ∈ l) (hne : c ≠ '=') :
    c ∈ dropTrailEq l := by
  have hrev : c ∈ l.reverse := List.mem_reverse.mpr hc
  rcases h : l.reverse with _ | ⟨a, t⟩
  · rw [h] at hrev; cases hrev
  · rcases t with _ | ⟨b, r⟩
    · rw [h] at hrev
      have hca : c = a := List.mem_singleton.mp hrev
      subst hca
      simp only [dropTrailEq, h]
      rw [if_neg hne]
      exact hc
    · rw [h] at hrev
      simp only [dropTrailEq, h]
      by_cases ha : a = '='
      · by_cases hb : b = '='
        · rw [if_pos ha, if_pos hb]
          rcases List.mem_cons.mp hrev with h1 | h2
          · exact absurd (h1.trans ha) hne
          · rcases List.mem_cons.mp h2 with h3 | h4
            · exact absurd (h3.trans hb) hne
            · exact List.mem_reverse.mpr h4
        · rw [if_pos ha, if_neg hb]
          rcases List.mem_cons.mp hrev with h1 | h2
          · exact absurd (h1.trans ha) hne
          · exact List.mem_reverse.mpr h2
      · rw [if_neg ha]
        exact hc

/-- Any character outside the base64 alphabet fails the whole decode. -/
theorem mapB64Vals_eq_none :
    ∀ (l : List Char), (∃ c ∈ l, b64Val c = none) → mapB64Vals l = none := by
  intro l
  induction l with
  | nil => rintro ⟨c, hc, -⟩; cases hc
  | cons a as ih =>
    rintro ⟨c, hc, hval⟩
    rcases List.mem_cons.mp hc with rfl | hmem
    · simp [mapB64Vals, hval]
    · rw [mapB64Vals, ih ⟨c, hmem, hval⟩]
      cases b64Val a <;> rfl

/-- `atob` fails whenever its input contains a character that is
neither ASCII whitespace, nor `=` padding, nor in the alphabet. -/
theorem atobJs_invalid {c : Char} {cs : List Char} (hc : c ∈ cs)
    (hval : b64Val c = none) (hne : c ≠ '=') (hws : asciiWs c = false) :
    atobJs cs = none := by
  have h1 : c ∈ cs.filter fun c => !asciiWs c :=
    List.mem_filter.mpr ⟨hc, by rw [hws]; rfl⟩
  have h2 : c ∈ (if (cs.filter fun c => !asciiWs c).length % 4 = 0
      then dropTrailEq (cs.filter fun c => !asciiWs c)
      else cs.filter fun c => !asciiWs c) := by
    by_cases h : (cs.filter fun c => !asciiWs c).length % 4 = 0
    · rw [if_pos h]; exact mem_dropTrailEq h1 hne
    · rw [if_neg h]; exact h1
  unfold atobJs
  by_cases hlen : (if (cs.filter fun c => !asciiWs c).length % 4 = 0
      then dropTrailEq (cs.filter fun c => !asciiWs c)
      else cs.filter fun c => !asciiWs c).length % 4 = 1
  · rw [if_pos hlen]
  · rw [if_neg hlen, mapB64Vals_eq_none _ ⟨c, h2, hval⟩]

/-- An equality used when instantiating `runFrom_spec`. -/
theorem statusAt_imageInit_eq (pre : List Bool) (j : Nat) :
    statusAt (imageInit pre) j = if pre.getD j true then .pending else .error := by
  unfold statusAt
  rw [getD_imageInit]
  by_cases h : pre.getD j true
  · rw [if_pos h, if_pos h]; rfl
  · rw [if_neg h, if_neg h]; rfl

/-- The MIME type of an engine-produced output, `none` otherwise. -/
def convertedMime : VideoOutcome → Option String
  | .converted c => some c.mime
  | _ => none

/-! ## Claims -/

/-- C1: the claim says the video resolver passes
`floor(w × originalH / originalW)` (evened) as the scale height; on
originals 100×50 with requested width 30 the spec formula yields 15,
evened to 16, but `resizeVideo` overrides the computed geometry with
half of the original dimensions and hands `scale=50:25` (odd height) to
the engine.  The image-path resolver does follow the claimed formula
(`30×50/100 = 15`).  This evaluates the code at the failing input. -/
theorem c1_video_override_code_bug :
    resizeVideoModel "video/mp4" 100 50 (some 30) none none true =
      .converted ⟨50, 25, true, none, "video/mp4"⟩ ∧
    specResolvedHeight 30 100 50 = 16 ∧
    (50 : ℚ) ≠ 30 ∧ (25 : ℚ) ≠ 16 ∧ jsOdd (25 : ℚ) = true ∧
    resizeImageModel 100 50 (some 30) none .jpg true true = .canvas 30 15 "image/jpeg" := by
  refine ⟨?_, ?_, ?_, ?_, ?_, ?_⟩ <;>
    norm_num [resizeVideoModel, resizeImageModel, specResolvedHeight, jsTruthy,
      jsEqNum, jsOrZero, jsOdd, jsMod2, jsFloor, imageMime]

/-- C2: the Base64 decode surface round-trips a standard encoding of a
PNG byte sequence and classifies it as PNG by signature with no
data-URI prefix; a data-URI prefix is tolerated; the URL-safe alphabet
and missing padding are corrected; the six magic-byte signatures are
classified; and a post-correction length of 1 mod 4 or an invalid
alphabet character yields the definitive reported error. -/
theorem c2_base64_decode_surface :
    handleConvertDecode (String.mk (base64Encode pngBytes)) = .ok pngBytes "image/png" ∧
    handleConvertDecode ("data:image/png;base64," ++ String.mk (base64Encode pngBytes)) =
      .ok pngBytes "image/png" ∧
    handleConvertDecode "----__8" = .ok [251, 239, 190, 255, 255] "application/octet-stream" ∧
    sniffMime [0xFF, 0xD8, 0xFF, 0xE0] = "image/jpeg" ∧
    sniffMime pngBytes = "image/png" ∧
    sniffMime [0x47, 0x49, 0x46, 0x38, 0x39, 0x61] = "image/gif" ∧
    sniffMime [0x52, 0x49, 0x46, 0x46, 0, 0, 0, 0] = "image/webp" ∧
    sniffMime [0x42, 0x4D, 0, 0] = "image/bmp" ∧
    sniffMime [0x00, 0x00, 0x00, 0x0C, 0x6A, 0x50, 0x20, 0x20] = "image/jp2" ∧
    (∀ s : String, listTrim s.data ≠ [] →
      (preprocessB64 (listTrim s.data)).2.length % 4 = 1 →
      handleConvertDecode s = .err "Invalid Base64 length") ∧
    (∀ (s : String) (c : Char), listTrim s.data ≠ [] →
      ¬(preprocessB64 (listTrim s.data)).2.length % 4 = 1 →
      c ∈ padCorrect (preprocessB64 (listTrim s.data)).2 →
      b64Val c = none → c ≠ '=' → asciiWs c = false →
      handleConvertDecode s = .err "Invalid Base64 characters.") := by
  refine ⟨by decide, by decide, by decide, by decide, by decide, by decide, by decide,
    by decide, by decide, ?_, ?_⟩
  · intro s h1 h2
    simp only [handleConvertDecode]
    rw [if_neg h1, if_pos h2]
  · intro s c h1 h2 hmem hval hne hws
    have hatob := atobJs_invalid hmem hval hne hws
    simp only [handleConvertDecode]
    rw [if_neg h1, if_neg h2, hatob]

/-- C2 witness: the length error at `"AAAAA"` (5 characters, 1 mod 4)
and the invalid-character error at `"AB$D"`. -/
theorem c2_base64_decode_surface_witness :
    handleConvertDecode "AAAAA" = .err "Invalid Base64 length" ∧
    handleConvertDecode "AB$D" = .err "Invalid Base64 characters." := by
  have h := c2_base64_decode_surface
  exact ⟨h.2.2.2.2.2.2.2.2.2.1 "AAAAA" (by decide) (by decide),
    h.2.2.2.2.2.2.2.2.2.2 "AB$D" '$' (by decide) (by decide) (by decide) (by decide)
      (by decide) (by decide)⟩

/-- C3: both orchestrators process items strictly sequentially — in
every snapshot step, an item can leave `pending` only when every
earlier item is terminal — and every item reaches the terminal state
determined by its own converter outcome, so one item's failure is
isolated from the others (ImagePage items whose probe failed start and
stay in `error`). -/
theorem c3_sequential_isolation :
    ∀ os : List Outcome,
      (traceOK (videoBatchTrace os) ∧
        ∀ j, j < os.length →
          statusAt (videoBatchFinal os) j = outcomeStatus (os.getD j .ok)) ∧
      (∀ pre : List Bool, os.length ≤ pre.length →
        traceOK (imageBatchTrace pre os) ∧
        ∀ j, j < os.length →
          statusAt (imageBatchFinal pre os) j =
            if pre.getD j true then outcomeStatus (os.getD j .ok) else .error) := by
  intro os
  constructor
  · have h := runFrom_spec videoCfg (pendingInit os.length) os (pendingInit os.length) 0
      (by simp [pendingInit]) (fun k hk => absurd hk (Nat.not_lt_zero k)) (fun k _ => rfl)
    refine ⟨h.1, ?_⟩
    intro j hj
    have hc := h.2.2 j hj
    simp only [Nat.zero_add] at hc
    have hne : ¬statusAt (pendingInit os.length) j = .error := by
      rw [statusAt_pendingInit]; exact fun hh => Status.noConfusion hh
    rw [if_neg hne, getD_pendingInit] at hc
    unfold statusAt videoBatchFinal
    rw [hc, applyOutcome_status]
  · intro pre hlenp
    have h := runFrom_spec imageCfg (imageInit pre) os (imageInit pre) 0
      (by simpa [imageInit] using hlenp) (fun k hk => absurd hk (Nat.not_lt_zero k))
      (fun k _ => rfl)
    refine ⟨h.1, ?_⟩
    intro j hj
    have hc := h.2.2 j hj
    simp only [Nat.zero_add] at hc
    by_cases hp : pre.getD j true
    · have hne : ¬statusAt (imageInit pre) j = .error := by
        rw [statusAt_imageInit_eq, if_pos hp]; exact fun hh => Status.noConfusion hh
      rw [if_neg hne, getD_imageInit, if_pos hp] at hc
      rw [if_pos hp]
      unfold statusAt imageBatchFinal
      rw [hc, applyOutcome_status]
    · have hcond : statusAt (imageInit pre) j = .error := by
        rw [statusAt_imageInit_eq, if_neg hp]
      rw [if_pos hcond, getD_imageInit, if_neg hp] at hc
      rw [if_neg hp]
      unfold statusAt imageBatchFinal
      rw [hc]
      rfl

/-- C3 witness: three files, item 2's conversion fails — item 1 still
reaches `success`, item 3 is attempted and reaches `success`, and the
whole trace respects sequential order. -/
theorem c3_sequential_isolation_witness :
    statusAt (videoBatchFinal [.ok, .nullResult, .ok]) 0 = .success ∧
    statusAt (videoBatchFinal [.ok, .nullResult, .ok]) 1 = .error ∧
    statusAt (videoBatchFinal [.ok, .nullResult, .ok]) 2 = .success ∧
    traceOK (videoBatchTrace [.ok, .nullResult, .ok]) := by
  have h := c3_sequential_isolation [.ok, .nullResult, .ok]
  exact ⟨h.1.2 0 (by decide), h.1.2 1 (by decide), h.1.2 2 (by decide), h.1.1⟩

/-- C4 counterexample: with original 100×50 and requested width 100
(no height), the resolved target dimensions are exactly the original
100×50, yet `resizeImage` does not return the original data — it
redraws to a canvas and re-encodes, because its no-op check compares
the requested (not resolved) dimensions and `height === beforeHeight`
is false for a `null` height. -/
theorem c4_resolved_equal_counterexample :
    resizeImageModel 100 50 (some 100) none .png true true = .canvas 100 50 "image/png" ∧
    resizeImageModel 100 50 (some 100) none .png true true ≠ .origData := by
  have h1 : resizeImageModel 100 50 (some 100) none .png true true =
      .canvas 100 50 "image/png" := by
    norm_num [resizeImageModel, jsTruthy, jsEqNum, jsOrZero, jsFloor, imageMime]
  refine ⟨h1, ?_⟩
  rw [h1]
  exact fun hcontra => ImageOutcome.noConfusion hcontra

/-- C4 (amended): the no-op is keyed on the requested dimensions, not
the resolved ones.  Video: with no fps requested, the original blob is
returned unchanged when the requested dimensions that are present
equal the original ones (or none are present).  Image: the original
blob is returned unchanged when no dimension is requested, or both are
requested and both equal the original. -/
theorem c4_noop_requested_equals_original :
    (∀ (inMime : String) (bW bH : ℚ) (w h fps : Option ℚ) (execOk : Bool),
      jsTruthy fps = false →
      ((w = some bW ∧ (h = some bH ∨ jsTruthy h = false)) ∨
       (h = some bH ∧ (w = some bW ∨ jsTruthy w = false)) ∨
       (jsTruthy w = false ∧ jsTruthy h = false)) →
      resizeVideoModel inMime bW bH w h fps execOk = .origData inMime) ∧
    (∀ (bW bH : ℚ) (w h : Option ℚ) (ext : ImageExt) (ctxOk blobOk : Bool),
      ((jsTruthy w = false ∧ jsTruthy h = false) ∨ (w = some bW ∧ h = some bH)) →
      resizeImageModel bW bH w h ext ctxOk blobOk = .origData) := by
  constructor
  · intro inMime bW bH w h fps execOk hfps hcase
    by_cases h1 : ¬jsTruthy w ∧ ¬jsTruthy h ∧ ¬jsTruthy fps
    · simp only [resizeVideoModel]
      rw [if_pos h1]
    · simp only [resizeVideoModel]
      rw [if_neg h1]
      have h2 : ¬jsTruthy fps ∧
          ((jsEqNum bW w ∧ (jsEqNum bH h ∨ ¬jsTruthy h)) ∨
           (jsEqNum bH h ∧ (jsEqNum bW w ∨ ¬jsTruthy w))) := by
        refine ⟨by simp [hfps], ?_⟩
        rcases hcase with ⟨hw, hh⟩ | ⟨hh, hw⟩ | ⟨hw, hh⟩
        · refine Or.inl ⟨by simp [hw, jsEqNum], ?_⟩
          rcases hh with hh | hh
          · exact Or.inl (by simp [hh, jsEqNum])
          · exact Or.inr (by simp [hh])
        · refine Or.inr ⟨by simp [hh, jsEqNum], ?_⟩
          rcases hw with hw | hw
          · exact Or.inl (by simp [hw, jsEqNum])
          · exact Or.inr (by simp [hw])
        · exact absurd ⟨by simp [hw], by simp [hh], by simp [hfps]⟩ h1
      rw [if_pos h2]
  · intro bW bH w h ext ctxOk blobOk hcase
    by_cases h1 : ¬jsTruthy w ∧ ¬jsTruthy h
    · simp only [resizeImageModel]
      rw [if_pos h1]
    · simp only [resizeImageModel]
      rw [if_neg h1]
      have h2 : (¬jsTruthy w ∧ ¬jsTruthy h) ∨ (jsEqNum bW w ∧ jsEqNum bH h) := by
        rcases hcase with ⟨hw, hh⟩ | ⟨hw, hh⟩
        · exact Or.inl ⟨by simp [hw], by simp [hh]⟩
        · exact Or.inr ⟨by simp [hw, jsEqNum], by simp [hh, jsEqNum]⟩
      rw [if_pos h2]

/-- C4 witness: requested width equal to the original (video, no fps;
image with both dimensions equal) returns the original data. -/
theorem c4_noop_requested_equals_original_witness :
    resizeVideoModel "video/webm" 100 50 (some 100) none none true = .origData "video/webm" ∧
    resizeImageModel 100 50 (some 100) (some 50) .png true true = .origData := by
  have h := c4_noop_requested_equals_original
  exact ⟨h.1 "video/webm" 100 50 (some 100) none none true rfl (Or.inl ⟨rfl, Or.inr rfl⟩),
    h.2 100 50 (some 100) (some 50) .png true true (Or.inr ⟨rfl, rfl⟩)⟩

/-- C5 counterexample: a conversion that takes the no-op early return
produces an output (the original webm blob, container unchanged) that
is not re-encoded to mp4, while the download filename would still carry
the `.mp4` extension. -/
theorem c5_output_mp4_counterexample :
    resizeVideoModel "video/webm" 100 50 (some 100) none none true = .origData "video/webm" ∧
    "video/webm" ≠ "video/mp4" ∧
    videoDownloadName "clip.webm" = "clip_resized.mp4" := by
  refine ⟨?_, by decide, by decide⟩
  have h2 : jsEqNum (100 : ℚ) (some 100) = true := by simp [jsEqNum]
  simp only [resizeVideoModel]
  rw [if_neg ?hneg, if_pos ?hpos]
  case hneg =>
    intro hcontra
    have := hcontra.1
    simp [jsTruthy] at this
  case hpos =>
    refine ⟨by simp [jsTruthy], Or.inl ⟨by simp [jsEqNum], Or.inr (by simp [jsTruthy])⟩⟩

/-- C5 (amended): every output produced by the engine transform path is
`video/mp4` regardless of the input container, and the downloadable
filename is the original base name plus `_resized` plus the fixed mp4
extension (the no-op path returns the original data in its original
container). -/
theorem c5_engine_output_mp4_and_filename :
    (∀ (inMime : String) (bW bH : ℚ) (w h fps : Option ℚ) (execOk : Bool),
      convertedMime (resizeVideoModel inMime bW bH w h fps execOk) = none ∨
      convertedMime (resizeVideoModel inMime bW bH w h fps execOk) = some "video/mp4") ∧
    (∀ name : String, ∃ base : List Char,
      (videoDownloadName name).data = base ++ "_resized.mp4".data) ∧
    videoDownloadName "clip.mov" = "clip_resized.mp4" ∧
    videoDownloadName "video" = "video_resized.mp4" := by
  refine ⟨?_, ?_, by decide, by decide⟩
  · intro inMime bW bH w h fps execOk
    simp only [resizeVideoModel]
    by_cases h1 : ¬jsTruthy w ∧ ¬jsTruthy h ∧ ¬jsTruthy fps
    · rw [if_pos h1]; exact Or.inl rfl
    · rw [if_neg h1]
      by_cases h2 : ¬jsTruthy fps ∧
          ((jsEqNum bW w ∧ (jsEqNum bH h ∨ ¬jsTruthy h)) ∨
           (jsEqNum bH h ∧ (jsEqNum bW w ∨ ¬jsTruthy w)))
      · rw [if_pos h2]; exact Or.inl rfl
      · rw [if_neg h2]
        cases execOk with
        | false => exact Or.inl (by rw [if_neg Bool.false_ne_true]; rfl)
        | true => exact Or.inr (by rw [if_pos rfl]; rfl)
  · intro name
    unfold videoDownloadName
    exact ⟨_, rfl⟩

/-- C6 counterexample: after a failed transform, the working namespace
still contains the input entry `tmp.mp4` — nothing was cleaned up,
contradicting the claim that cleanup occurs even when the transform
step fails. -/
theorem c6_cleanup_counterexample :
    (resizeVideoFS .mp4 false "ffmpeg exec failed").2.2 = ["tmp.mp4"] ∧
    (resizeVideoFS .mp4 false "ffmpeg exec failed").2.2 ≠ [] := by decide

/-- C6 (amended): the only cleanup `resizeVideo` performs is deleting
the output entry, and only on the success path; the input entry
`'tmp.' + ext` is never deleted and survives every call, succeeding or
failing. -/
theorem c6_cleanup_output_only_on_success :
    ∀ (ext : VideoExt) (execOk : Bool) (errText : String),
      ("tmp." ++ ext.str) ∈ (resizeVideoFS ext execOk errText).2.2 ∧
      "tmp_output.mp4" ∉ (resizeVideoFS ext execOk errText).2.2 := by
  intro ext execOk errText
  cases ext <;> cases execOk <;> simp [resizeVideoFS, VideoExt.str]

/-- C7: the VideoPage effect depends on `[results]`, so its cleanup
revokes every URL of the previous snapshot — twice — on every results
update: a handle minted for a succeeded item is revoked while its
preview is still displayed and is revoked 4 times in total over this
3-snapshot trace, not exactly once at discard; and on the ImagePage a
new selection discards a successful item without its handle ever being
revoked. -/
theorem c7_handle_revocation_code_bug :
    videoRevocations [[none, none], [some "u", none], [some "u", some "v"]] =
      ["u", "u", "u", "v", "u", "v"] ∧
    List.count "u" (videoRevocations [[none, none], [some "u", none], [some "u", some "v"]]) = 4 ∧
    imageRevocations [[some "u"], []] = [] := by decide

/-- C8: whenever no file is selected, or no parameter is specified, or
a specified parameter is not strictly positive, or (image path) both
width and height are specified, the click is blocked with a global
error and the batch never starts (no snapshots, no item leaves
`pending`). -/
theorem c8_validation_blocks_batch :
    (∀ (os : List Outcome) (w h fps : Option Int),
      (os = [] ∨ (w = none ∧ h = none ∧ fps = none) ∨
        nonPositive w = true ∨ nonPositive h = true ∨ nonPositive fps = true) →
      ∃ msg, handleResizeClickVideo os w h fps = .blocked msg) ∧
    (∀ (pre : List Bool) (os : List Outcome) (w h : Option Int),
      (os = [] ∨ (w = none ∧ h = none) ∨ (w ≠ none ∧ h ≠ none) ∨
        nonPositive w = true ∨ nonPositive h = true) →
      ∃ msg, handleResizeClickImage pre os w h = .blocked msg) := by
  constructor
  · intro os w h fps hcase
    unfold handleResizeClickVideo
    suffices hv : ∃ m, videoValidationError os.length w h fps = some m by
      obtain ⟨m, hm⟩ := hv
      rw [hm]
      exact ⟨m, rfl⟩
    unfold videoValidationError
    by_cases h0 : os.length = 0
    · rw [if_pos h0]; exact ⟨_, rfl⟩
    · rw [if_neg h0]
      by_cases hall : w = none ∧ h = none ∧ fps = none
      · rw [if_pos hall]; exact ⟨_, rfl⟩
      · rw [if_neg hall]
        have hp : (nonPositive w || nonPositive h || nonPositive fps) = true := by
          rcases hcase with hnil | hall' | hw | hh | hf
          · exact absurd (by rw [hnil]; rfl) h0
          · exact absurd hall' hall
          · simp [hw]
          · simp [hh]
          · simp [hf]
        rw [if_pos hp]
        exact ⟨_, rfl⟩
  · intro pre os w h hcase
    unfold handleResizeClickImage
    suffices hv : ∃ m, imageValidationError os.length w h = some m by
      obtain ⟨m, hm⟩ := hv
      rw [hm]
      exact ⟨m, rfl⟩
    unfold imageValidationError
    by_cases h0 : os.length = 0
    · rw [if_pos h0]; exact ⟨_, rfl⟩
    · rw [if_neg h0]
      by_cases hall : w = none ∧ h = none
      · rw [if_pos hall]; exact ⟨_, rfl⟩
      · rw [if_neg hall]
        by_cases hboth : w ≠ none ∧ h ≠ none
        · rw [if_pos hboth]; exact ⟨_, rfl⟩
        · rw [if_neg hboth]
          have hp : (nonPositive w || nonPositive h) = true := by
            rcases hcase with hnil | hall' | hboth' | hw | hh
            · exact absurd (by rw [hnil]; rfl) h0
            · exact absurd hall' hall
            · exact absurd hboth' hboth
            · simp [hw]
            · simp [hh]
          rw [if_pos hp]
          exact ⟨_, rfl⟩

/-- C8 witness: no file selected (video), and width+height both given
(image) each block the batch. -/
theorem c8_validation_blocks_batch_witness :
    (∃ msg, handleResizeClickVideo [] (some 100) none none = .blocked msg) ∧
    (∃ msg, handleResizeClickImage [true] [.ok] (some 2) (some 3) = .blocked msg) := by
  have h := c8_validation_blocks_batch
  exact ⟨h.1 [] (some 100) none none (Or.inl rfl),
    h.2 [true] [.ok] (some 2) (some 3)
      (Or.inr (Or.inr (Or.inl ⟨fun hx => Option.noConfusion hx,
        fun hx => Option.noConfusion hx⟩)))⟩

/-- C9: selecting `maxAllowed + k` valid files (3 for video, 5 for
image) accepts exactly `maxAllowed` items and reports exactly `k`
rejection messages. -/
theorem c9_file_count_ceiling :
    (∀ (names : List String) (k : Nat),
      (∀ n ∈ names, isAcceptedName ["mp4", "mov", "webm"] n = true) →
      names.length = 3 + k →
      (videoSelect names).1.length = 3 ∧ (videoSelect names).2.length = k) ∧
    (∀ (names : List String) (k : Nat),
      (∀ n ∈ names, isAcceptedName ["jpg", "jpeg", "png", "gif", "avif"] n = true) →
      names.length = 5 + k →
      (imageSelect names).1.length = 5 ∧ (imageSelect names).2.length = k) := by
  constructor
  · intro names k hval hlen
    have h := selectFiles_lengths 3 ["mp4", "mov", "webm"] names 0 hval
    unfold videoSelect
    constructor
    · rw [h.1, hlen]; omega
    · rw [h.2, hlen]; omega
  · intro names k hval hlen
    have h := selectFiles_lengths 5 ["jpg", "jpeg", "png", "gif", "avif"] names 0 hval
    unfold imageSelect
    constructor
    · rw [h.1, hlen]; omega
    · rw [h.2, hlen]; omega

/-- C9 witness: five valid video files yield 3 accepted and 2 rejection
messages. -/
theorem c9_file_count_ceiling_witness :
    (videoSelect ["a.mp4", "b.mov", "c.webm", "d.mp4", "e.mp4"]).1.length = 3 ∧
    (videoSelect ["a.mp4", "b.mov", "c.webm", "d.mp4", "e.mp4"]).2.length = 2 := by
  exact c9_file_count_ceiling.1 ["a.mp4", "b.mov", "c.webm", "d.mp4", "e.mp4"] 2
    (by decide) (by decide)

/-- C10: on transform failure the invoker returns a definitive absence
(`null`), not an exception, after logging the underlying error to the
console; and a converter call that throws is caught by the orchestrator
and converted into that item's `error` state, with the error text
recorded in the item and appended to its progress log. -/
theorem c10_failure_absence_and_catch :
    (∀ (ext : VideoExt) (errText : String),
      (resizeVideoFS ext false errText).1 = none ∧
      errText ∈ (resizeVideoFS ext false errText).2.1) ∧
    (∀ (os : List Outcome) (j : Nat) (m : String),
      j < os.length → os.getD j .ok = .thrown m →
      (videoBatchFinal os).getD j blankItem =
        ⟨.error,
         ["Starting process...", "Error: " ++ ("An unexpected error occurred: " ++ m)],
         some ("An unexpected error occurred: " ++ m)⟩) := by
  constructor
  · intro ext errText
    exact ⟨rfl, List.mem_singleton.mpr rfl⟩
  · intro os j m hj hm
    have h := runFrom_spec videoCfg (pendingInit os.length) os (pendingInit os.length) 0
      (by simp [pendingInit]) (fun k hk => absurd hk (Nat.not_lt_zero k)) (fun k _ => rfl)
    have hc := h.2.2 j hj
    simp only [Nat.zero_add] at hc
    have hne : ¬statusAt (pendingInit os.length) j = .error := by
      rw [statusAt_pendingInit]; exact fun hh => Status.noConfusion hh
    rw [if_neg hne, getD_pendingInit, hm] at hc
    unfold videoBatchFinal
    rw [hc]
    rfl

/-- C10 witness: a second item whose converter throws `"boom"` ends in
`error` with the text recorded and appended to its log, and a failing
engine run returns `none` after logging. -/
theorem c10_failure_absence_and_catch_witness :
    (resizeVideoFS .mp4 false "boom").1 = none ∧
    "boom" ∈ (resizeVideoFS .mp4 false "boom").2.1 ∧
    (videoBatchFinal [.ok, .thrown "boom"]).getD 1 blankItem =
      ⟨.error,
       ["Starting process...", "Error: " ++ ("An unexpected error occurred: " ++ "boom")],
       some ("An unexpected error occurred: " ++ "boom")⟩ := by
  have h := c10_failure_absence_and_catch
  exact ⟨(h.1 .mp4 "boom").1, (h.1 .mp4 "boom").2,
    h.2 [.ok, .thrown "boom"] 1 "boom" (by decide) rfl⟩

end ResizeTool
